import Mathlib

/-!
Shallow embedding of the rusty-bank core: the `EuroCent` money type
(`src/domain/euro_cent.rs`), the event-sourced `Account` aggregate
(`src/domain/account.rs`) and the in-memory account-ids projection
(`src/infra/account/in_mem_ids_projection.rs`).

Machine integers (`u64`) are modelled as `Nat` with explicit reduction
modulo `2 ^ 64` wherever the Rust operation can overflow: the Rust release
profile compiles `+` and `-` on `u64` to twos-complement wrapping
arithmetic (debug builds abort instead; in neither case is the
mathematical result returned once it leaves the `u64` range).
`Uuid` values are opaque identifiers with decidable equality, modelled
as `Nat`.
-/

namespace RustyBank

/-- Rust `u64::MAX + 1`, the modulus of `u64` arithmetic. -/
def u64Mod : Nat := 2 ^ 64

/-- Uuid (`uuid::Uuid`): an opaque 128-bit identifier; only equality is
used by the embedded code, so it is modelled as `Nat`. The signatures
below spell the alias out as `Nat` (the same type) so that arithmetic
automation applies to id and amount variables alike. -/
abbrev Uuid := Nat

/-- EuroCent (`src/domain/euro_cent.rs`): newtype over `u64`, a count of
euro cents. Modelled by its numeric value, a `Nat` (representable values
are those `< 2 ^ 64`); signatures below spell the alias out as `Nat`. -/
abbrev EuroCent := Nat

/-- The `Add` impl derived by `natural_derive` on `EuroCent` delegates to
`u64` addition on the wrapped value: wrapping modulo `2 ^ 64` in release
builds (debug builds abort on overflow). -/
def euroCentAdd (a b : Nat) : Nat := (a + b) % u64Mod

/-- The `Sub` impl derived by `natural_derive` on `EuroCent` delegates to
`u64` subtraction on the wrapped value: twos-complement wrapping
modulo `2 ^ 64` in release builds (debug builds abort on underflow). -/
def euroCentSub (a b : Nat) : Nat := (a + u64Mod - b) % u64Mod

/-- Zero-pad a numeral to (at least) two digits, as the Rust `{cent:02}`
format specifier does. -/
def pad2 (n : Nat) : String := if n < 10 then "0" ++ toString n else toString n

/-- Embeds `impl Display for EuroCent` (`src/domain/euro_cent.rs` lines 11-18):
`write!(f, "{eur}.{cent:02}€")` with `eur = self.0 / 100` and
`cent = self.0 % 100`. -/
def euroCentDisplay (ec : Nat) : String :=
  toString (ec / 100) ++ "." ++ pad2 (ec % 100) ++ "€"

/-- Embeds `ACCOUNT_LIFECYCLE_TAG` (`src/domain/account.rs` line 9). -/
def ACCOUNT_LIFECYCLE_TAG : String := "account-lifecycle"

/-- Commands for an eventsourced `Account` (`enum Cmd`). -/
inductive Cmd where
  | Create (id : Nat)
  | Deposit (id : Nat) (amount : Nat)
  | Withdraw (id : Nat) (amount : Nat)
deriving DecidableEq, Repr

/-- Events for an eventsourced `Account` (`enum Evt`). -/
inductive Evt where
  | Created (id : Nat)
  | Deposited (id : Nat) (old_balance : Nat) (amount : Nat)
  | Withdrawn (id : Nat) (old_balance : Nat) (amount : Nat)
deriving DecidableEq, Repr

/-- Aggregate state (`enum State`): `NonExistent` (the `Default`) or
`Created { id, balance }`. -/
inductive State where
  | NonExistent
  | Created (id : Nat) (balance : Nat)
deriving DecidableEq, Repr

/-- Command handler errors (`enum Error`). -/
inductive Error where
  | InvalidWithdraw (balance : Nat) (withdraw_amount : Nat)
  | NotYetCreated
  | AlreadyCreated
deriving DecidableEq, Repr

/-- The result of `handle_cmd`: an event together with its optional tag
(`with_tag` attaches one, `into_tagged_evt` attaches none). -/
structure TaggedEvt where
  evt : Evt
  tag : Option String
deriving DecidableEq, Repr

/-- The `Account` aggregate (`struct Account`): optional snapshot cadence
(`Option<NonZeroU64>`), current state, and the `u64` count of events
applied since construction. -/
structure Account where
  snapshot_after : Option {n : Nat // 0 < n}
  state : State
  evt_count : Nat
deriving DecidableEq, Repr

/-- Embeds `Account::default()`: no snapshot cadence, state `NonExistent`,
event count 0. -/
def Account.default : Account :=
  { snapshot_after := none, state := State.NonExistent, evt_count := 0 }

/-- Embeds `Account::handle_cmd` (`src/domain/account.rs` lines 88-125): a pure
function of the current state and the command (`&self`, no mutation);
returns the tagged event to emit or a domain error. Match arms are in
source order; the `balance < amount` guard on `Withdraw` becomes the
`if`. -/
def handleCmd (a : Account) (cmd : Cmd) : Except Error TaggedEvt :=
  match a.state, cmd with
  | State.NonExistent, Cmd.Create id =>
      Except.ok ⟨Evt.Created id, some ACCOUNT_LIFECYCLE_TAG⟩
  | State.NonExistent, _ => Except.error Error.NotYetCreated
  | State.Created _ balance, Cmd.Deposit id amount =>
      Except.ok ⟨Evt.Deposited id balance amount, none⟩
  | State.Created _ balance, Cmd.Withdraw id amount =>
      if balance < amount then Except.error (Error.InvalidWithdraw balance amount)
      else Except.ok ⟨Evt.Withdrawn id balance amount, none⟩
  | State.Created _ _, Cmd.Create _ => Except.error Error.AlreadyCreated

/-- The state-transition part of `Account::handle_evt` (lines 130-165):
the new state passed to `set_state`, or `none` where the Rust code
panics on an illegal (state, event) pair (lines 137 and 164). The `id`
and `old_balance` fields of `Deposited` / `Withdrawn` are matched with
`_` in the source and are ignored here likewise. -/
def applyEvt (s : State) (evt : Evt) : Option State :=
  match s, evt with
  | State.NonExistent, Evt.Created id => some (State.Created id 0)
  | State.NonExistent, _ => none
  | State.Created id balance, Evt.Deposited _ _ amount =>
      some (State.Created id (euroCentAdd balance amount))
  | State.Created id balance, Evt.Withdrawn _ _ amount =>
      some (State.Created id (euroCentSub balance amount))
  | State.Created _ _, Evt.Created _ => none

/-- Embeds `Account::handle_evt` (lines 127-174): fold the event into the state
(`none` models the panic on an illegal pair), then increment the `u64`
event counter, then surface the new state as a snapshot candidate when a
cadence is configured and the counter is a multiple of it. -/
def handleEvt (a : Account) (evt : Evt) : Option (Account × Option State) :=
  (applyEvt a.state evt).map fun s =>
    let cnt := (a.evt_count + 1) % u64Mod
    let a2 : Account := { snapshot_after := a.snapshot_after, state := s, evt_count := cnt }
    (a2, (a.snapshot_after.filter fun n => cnt % n.val == 0).map fun _ => s)

/-- One command submitted to a live aggregate: validate with `handleCmd`;
a rejection leaves the aggregate untouched, the event of an accepted command
is immediately folded with `handleEvt` (`none` models the fold
panicking). -/
def stepCmd (a : Account) (cmd : Cmd) : Option Account :=
  match handleCmd a cmd with
  | Except.error _ => some a
  | Except.ok te => (handleEvt a te.evt).map Prod.fst

/-- Run a sequence of commands through the aggregate — validate each
with `handleCmd`, fold the event of each accepted command with
`handleEvt`, leave the state untouched on rejection — additionally
accumulating the total amount of accepted `Deposit` commands and the
total amount of accepted `Withdraw` commands (as unbounded naturals). -/
def runAcc (a : Account) : List Cmd → Option (Account × Nat × Nat)
  | [] => some (a, 0, 0)
  | c :: cs =>
      match handleCmd a c with
      | Except.error _ => runAcc a cs
      | Except.ok te =>
          (handleEvt a te.evt).bind fun p =>
            (runAcc p.1 cs).map fun q =>
              match c with
              | Cmd.Deposit _ amt => (q.1, amt + q.2.1, q.2.2)
              | Cmd.Withdraw _ amt => (q.1, q.2.1, amt + q.2.2)
              | Cmd.Create _ => q

/-- Sum of the amounts of all `Deposit` commands in a list (accepted or
not), as an unbounded natural. -/
def totalDeposits : List Cmd → Nat
  | [] => 0
  | Cmd.Deposit _ amt :: cs => amt + totalDeposits cs
  | _ :: cs => totalDeposits cs

/-- Run a sequence of events through `handleEvt`, collecting every
surfaced snapshot candidate; `none` models a panic along the way. -/
def runEvts : Account → List Evt → Option (Account × List State)
  | a, [] => some (a, [])
  | a, e :: es =>
      (handleEvt a e).bind fun p =>
        (runEvts p.1 es).map fun q => (q.1, p.2.toList ++ q.2)

/-- Recognizer for `Evt::Created`, the pattern of the projection
`while let` loop. -/
def isCreatedEvt : Evt → Bool
  | Evt.Created _ => true
  | _ => false

/-- The subscription loop of `InMemAccountIdsProjection::new`
(`src/infra/account/in_mem_ids_projection.rs` lines 36-44):
`while let Some(Ok((_, Evt::Created(id)))) = ids.next().await` inserts
`id` into the set; the loop body runs only while the pattern matches, so
the first delivered item that is not a `Created` event ends the loop
(after which termination is signalled). -/
def projLoop : List Evt → Finset Nat → Finset Nat
  | [], ids => ids
  | Evt.Created id :: rest, ids => projLoop rest (insert id ids)
  | _ :: _, ids => ids

/-- Embeds `InMemAccountIdsProjection::contains` (lines 59-61): membership in
the in-memory set. -/
def projContains (ids : Finset Nat) (id : Nat) : Bool := decide (id ∈ ids)

/-! Helper lemmas shared by several theorems below. -/

/-- Successful `handleEvt` calls, explicitly. -/
theorem handleEvt_eq {a : Account} {evt : Evt} {s : State}
    (h : applyEvt a.state evt = some s) :
    handleEvt a evt =
      some ({ snapshot_after := a.snapshot_after, state := s,
              evt_count := (a.evt_count + 1) % u64Mod },
        (a.snapshot_after.filter fun n => ((a.evt_count + 1) % u64Mod) % n.val == 0).map
          fun _ => s) := by
  simp [handleEvt, h]

/-- Inversion of a successful `handleEvt` call: the transition succeeded,
the cadence is carried over, the counter is the wrapped increment, and
the snapshot candidate is governed by the cadence filter. -/
theorem handleEvt_inv {a : Account} {evt : Evt} {a2 : Account} {snap : Option State}
    (h : handleEvt a evt = some (a2, snap)) :
    applyEvt a.state evt = some a2.state ∧
    a2.snapshot_after = a.snapshot_after ∧
    a2.evt_count = (a.evt_count + 1) % u64Mod ∧
    snap = (a.snapshot_after.filter fun n => a2.evt_count % n.val == 0).map
      fun _ => a2.state := by
  cases happ : applyEvt a.state evt with
  | none => simp [handleEvt, happ] at h
  | some s =>
    rw [@handleEvt_eq a evt s happ] at h
    injection h with hpair
    injection hpair with ha2 hsnap
    subst ha2
    exact ⟨rfl, rfl, rfl, hsnap.symm⟩

/-- Wrapped u64 addition is exact below the modulus. -/
theorem euroCentAdd_exact (a b : Nat) (h : a + b < u64Mod) : euroCentAdd a b = a + b :=
  Nat.mod_eq_of_lt h

/-- Wrapped u64 subtraction is exact when the subtrahend is bounded by a
representable minuend. -/
theorem euroCentSub_exact (a b : Nat) (hba : b ≤ a) (ha : a < u64Mod) :
    euroCentSub a b = a - b := by
  simp only [euroCentSub, u64Mod] at ha ⊢
  omega

/-- Lemma: `totalDeposits` distributes over append. -/
theorem totalDeposits_append (p q : List Cmd) :
    totalDeposits (p ++ q) = totalDeposits p + totalDeposits q := by
  induction p with
  | nil => simp [totalDeposits]
  | cons c cs ih =>
    cases c with
    | Create cid => simp [totalDeposits, ih]
    | Deposit did amt => simp [totalDeposits, ih, Nat.add_assoc]
    | Withdraw wid amt => simp [totalDeposits, ih]

/-- C8 counterexample: displaying 42 cents yields the string "0.42€",
not "0.42" as the claim states — the Display impl appends the euro sign
to every rendered value. -/
theorem c8_counterexample :
    euroCentDisplay 42 = "0.42€" ∧ euroCentDisplay 42 ≠ "0.42" := by
  constructor
  · rfl
  · decide

/-- C8 (amended): displaying the money value of n integer cents renders
the whole-euro part, a period, a fixed two-digit fractional part, and a
trailing euro sign: 42 renders as "0.42€", 142 as "1.42€", 66642 as
"666.42€", and 66607 as "666.07€". -/
theorem c8_display_two_digit_cents :
    euroCentDisplay 42 = "0.42€" ∧ euroCentDisplay 142 = "1.42€" ∧
    euroCentDisplay 66642 = "666.42€" ∧ euroCentDisplay 66607 = "666.07€" := by
  refine ⟨rfl, rfl, rfl, rfl⟩

/-- C9 counterexample: money addition is not saturating-checked — adding
2^63 cents to 2^63 cents wraps to 0, strictly below both operands,
instead of saturating at the u64 maximum 2^64 - 1. -/
theorem c9_counterexample :
    euroCentAdd (2 ^ 63) (2 ^ 63) = 0 ∧
    euroCentAdd (2 ^ 63) (2 ^ 63) ≠ 2 ^ 64 - 1 ∧
    euroCentAdd (2 ^ 63) (2 ^ 63) < 2 ^ 63 := by
  refine ⟨rfl, by decide, by decide⟩

/-- C9 (amended): money addition is plain u64 addition — exact while the
mathematical sum stays below 2^64, and wrapping modulo 2^64 once it
exceeds the representation (release semantics; debug builds abort) —
and subtraction of b from a with b ≤ a is exact; add and subtract are
the only arithmetic operations on the type, and within range all
arithmetic is exact integer arithmetic on non-negative cent amounts. -/
theorem c9_add_sub_exact_in_range :
    (∀ a b : Nat, a + b < u64Mod → euroCentAdd a b = a + b) ∧
    (∀ a b : Nat, a < u64Mod → b < u64Mod → u64Mod ≤ a + b →
      euroCentAdd a b = a + b - u64Mod) ∧
    (∀ a b : Nat, b ≤ a → a < u64Mod → euroCentSub a b = a - b) := by
  refine ⟨euroCentAdd_exact, fun a b ha hb hab => ?_, euroCentSub_exact⟩
  simp only [euroCentAdd, u64Mod] at ha hb hab ⊢
  omega

/-- C9 witness: concrete in-range addition and subtraction are exact. -/
theorem c9_add_sub_exact_in_range_witness :
    euroCentAdd 40 2 = 40 + 2 ∧ euroCentSub 42 2 = 42 - 2 :=
  ⟨c9_add_sub_exact_in_range.1 40 2 (by decide),
   c9_add_sub_exact_in_range.2.2 42 2 (by decide) (by decide)⟩

/-- C2: in state Created with balance b, Withdraw(op, a) succeeds —
emitting Withdrawn with old_balance b and amount a — exactly when a ≤ b;
when a > b it fails with InvalidWithdraw carrying balance b and
withdraw_amount a; and in the boundary case a = b folding the emitted
event yields balance 0. -/
theorem c2_withdraw_iff_sufficient_balance
    (a : Account) (id b op amt : Nat) (h : a.state = State.Created id b) :
    (amt ≤ b → handleCmd a (Cmd.Withdraw op amt) =
      Except.ok ⟨Evt.Withdrawn op b amt, none⟩) ∧
    (b < amt → handleCmd a (Cmd.Withdraw op amt) =
      Except.error (Error.InvalidWithdraw b amt)) ∧
    ((∃ te, handleCmd a (Cmd.Withdraw op amt) = Except.ok te) ↔ amt ≤ b) ∧
    (amt = b → (handleEvt a (Evt.Withdrawn op b amt)).map (fun p => p.1.state) =
      some (State.Created id 0)) := by
  refine ⟨fun hle => ?_, fun hlt => ?_, ⟨fun hex => ?_, fun hle => ?_⟩, fun heq => ?_⟩
  · simp [handleCmd, h, Nat.not_lt.mpr hle]
  · simp [handleCmd, h, hlt]
  · obtain ⟨te, hte⟩ := hex
    by_contra hlt
    simp [handleCmd, h, Nat.lt_of_not_le hlt] at hte
  · exact ⟨⟨Evt.Withdrawn op b amt, none⟩, by simp [handleCmd, h, Nat.not_lt.mpr hle]⟩
  · subst heq
    have hsub : euroCentSub amt amt = 0 := by
      simp [euroCentSub, Nat.add_sub_cancel_left]
    simp [handleEvt, applyEvt, h, hsub]

/-- C2 witness: with balance 30, withdrawing 31 fails with
InvalidWithdraw showing balance 30 and withdraw_amount 31. -/
theorem c2_withdraw_iff_sufficient_balance_witness :
    handleCmd { snapshot_after := none, state := State.Created 5 30, evt_count := 2 }
        (Cmd.Withdraw 9 31) = Except.error (Error.InvalidWithdraw 30 31) :=
  (c2_withdraw_iff_sufficient_balance _ 5 30 9 31 rfl).2.1 (by decide)

/-- C4: handle_cmd is a pure function of the (state, command) pair alone
— two aggregates with the same state get the same result whatever their
counters or cadences — and a rejected command leaves the aggregate
(state, balance and event count) exactly as it was; in particular a
second Create on an already-created account always fails with
AlreadyCreated and changes nothing. -/
theorem c4_rejection_deterministic_and_pure :
    (∀ (a a2 : Account) (cmd : Cmd), a.state = a2.state →
      handleCmd a cmd = handleCmd a2 cmd) ∧
    (∀ (a : Account) (cmd : Cmd) (e : Error),
      handleCmd a cmd = Except.error e → stepCmd a cmd = some a) ∧
    (∀ (a : Account) (id b op : Nat), a.state = State.Created id b →
      handleCmd a (Cmd.Create op) = Except.error Error.AlreadyCreated ∧
      stepCmd a (Cmd.Create op) = some a) := by
  refine ⟨fun a a2 cmd h => ?_, fun a cmd e h => ?_, fun a id b op h => ?_⟩
  · simp only [handleCmd, h]
  · simp [stepCmd, h]
  · have hc : handleCmd a (Cmd.Create op) = Except.error Error.AlreadyCreated := by
      simp [handleCmd, h]
    exact ⟨hc, by simp [stepCmd, hc]⟩

/-- C4 witness: a second Create on a created account with balance 7 is
rejected with AlreadyCreated and the aggregate is returned unchanged. -/
theorem c4_rejection_deterministic_and_pure_witness :
    handleCmd { snapshot_after := none, state := State.Created 1 7, evt_count := 2 }
        (Cmd.Create 8) = Except.error Error.AlreadyCreated ∧
    stepCmd { snapshot_after := none, state := State.Created 1 7, evt_count := 2 }
        (Cmd.Create 8) =
      some { snapshot_after := none, state := State.Created 1 7, evt_count := 2 } :=
  c4_rejection_deterministic_and_pure.2.2
    { snapshot_after := none, state := State.Created 1 7, evt_count := 2 } 1 7 8 rfl

/-- C5 counterexample: the unconditional Deposited fold equation is
false — applying Deposited{amount = 2^63} in state Created{id,
balance = 2^63} yields balance 0 (the u64 addition wraps), not
balance + amount = 2^64. -/
theorem c5_counterexample :
    (handleEvt { snapshot_after := none, state := State.Created 0 (2 ^ 63), evt_count := 1 }
        (Evt.Deposited 1 (2 ^ 63) (2 ^ 63))).map (fun p => p.1.state) =
      some (State.Created 0 0) ∧
    (0 : Nat) ≠ 2 ^ 63 + 2 ^ 63 := by
  constructor
  · rfl
  · decide

/-- C5 (amended): folding Created(id) in NonExistent yields Created with
balance 0; folding Deposited in Created adds the amount to the balance
exactly whenever the sum stays below 2^64 (beyond that the u64 addition
wraps — the only change the counterexample forces); folding Withdrawn
subtracts the amount exactly under the precondition amount ≤ balance,
which the command handler guarantees for every Withdrawn event it
emits, so the subtraction cannot underflow. -/
theorem c5_fold_equations :
    (∀ (a : Account) (id : Nat), a.state = State.NonExistent →
      (handleEvt a (Evt.Created id)).map (fun p => p.1.state) =
        some (State.Created id 0)) ∧
    (∀ (a : Account) (id b eid ob amt : Nat),
      a.state = State.Created id b → b + amt < u64Mod →
      (handleEvt a (Evt.Deposited eid ob amt)).map (fun p => p.1.state) =
        some (State.Created id (b + amt))) ∧
    (∀ (a : Account) (id b eid ob amt : Nat),
      a.state = State.Created id b → amt ≤ b → b < u64Mod →
      (handleEvt a (Evt.Withdrawn eid ob amt)).map (fun p => p.1.state) =
        some (State.Created id (b - amt)) ∧ b - amt + amt = b) ∧
    (∀ (a : Account) (op amt : Nat) (te : TaggedEvt),
      handleCmd a (Cmd.Withdraw op amt) = Except.ok te →
      ∃ id b, a.state = State.Created id b ∧ amt ≤ b ∧
        te = ⟨Evt.Withdrawn op b amt, none⟩) := by
  refine ⟨fun a id h => ?_, fun a id b eid ob amt h hlt => ?_,
    fun a id b eid ob amt h hle hb => ?_, fun a op amt te hok => ?_⟩
  · simp [handleEvt, applyEvt, h]
  · have : euroCentAdd b amt = b + amt := euroCentAdd_exact b amt hlt
    simp [handleEvt, applyEvt, h, this]
  · have : euroCentSub b amt = b - amt := euroCentSub_exact b amt hle hb
    exact ⟨by simp [handleEvt, applyEvt, h, this], Nat.sub_add_cancel hle⟩
  · cases hs : a.state with
    | NonExistent => simp [handleCmd, hs] at hok
    | Created id b =>
      by_cases hlt : b < amt
      · simp [handleCmd, hs, hlt] at hok
      · refine ⟨id, b, rfl, Nat.not_lt.mp hlt, ?_⟩
        simp [handleCmd, hs, hlt] at hok
        exact hok.symm

/-- C5 witness: folding Created then a Deposited of 50 on the initial
account yields the creation balance 0 and then balance 0 + 50. -/
theorem c5_fold_equations_witness :
    (handleEvt { snapshot_after := none, state := State.NonExistent, evt_count := 0 }
        (Evt.Created 3)).map (fun p => p.1.state) = some (State.Created 3 0) ∧
    (handleEvt { snapshot_after := none, state := State.Created 3 0, evt_count := 1 }
        (Evt.Deposited 4 0 50)).map (fun p => p.1.state) = some (State.Created 3 (0 + 50)) :=
  ⟨c5_fold_equations.1 _ 3 rfl, c5_fold_equations.2.1 _ 3 0 4 0 50 rfl (by decide)⟩

/-- C6: folding a Deposited or Withdrawn event in NonExistent, or a
Created event in Created, makes handle_evt abort (modelled as `none`,
the Rust panic) rather than produce a state; and every event actually
emitted by handle_cmd on the state it is folded into folds successfully,
so those aborting branches are unreachable along command-generated
histories. -/
theorem c6_illegal_event_aborts_and_unreachable :
    (∀ (a : Account) (eid ob amt : Nat), a.state = State.NonExistent →
      handleEvt a (Evt.Deposited eid ob amt) = none ∧
      handleEvt a (Evt.Withdrawn eid ob amt) = none) ∧
    (∀ (a : Account) (id b cid : Nat), a.state = State.Created id b →
      handleEvt a (Evt.Created cid) = none) ∧
    (∀ (a : Account) (cmd : Cmd) (te : TaggedEvt),
      handleCmd a cmd = Except.ok te → (handleEvt a te.evt).isSome = true) := by
  refine ⟨fun a eid ob amt h => ?_, fun a id b cid h => ?_, fun a cmd te hok => ?_⟩
  · exact ⟨by simp [handleEvt, applyEvt, h], by simp [handleEvt, applyEvt, h]⟩
  · simp [handleEvt, applyEvt, h]
  · cases hs : a.state with
    | NonExistent =>
      cases cmd with
      | Create cid =>
        simp [handleCmd, hs] at hok
        simp [handleEvt, applyEvt, hs, hok.symm]
      | Deposit did amt => simp [handleCmd, hs] at hok
      | Withdraw wid amt => simp [handleCmd, hs] at hok
    | Created id b =>
      cases cmd with
      | Create cid => simp [handleCmd, hs] at hok
      | Deposit did amt =>
        simp [handleCmd, hs] at hok
        simp [handleEvt, applyEvt, hs, hok.symm]
      | Withdraw wid amt =>
        by_cases hlt : b < amt
        · simp [handleCmd, hs, hlt] at hok
        · simp [handleCmd, hs, hlt] at hok
          simp [handleEvt, applyEvt, hs, hok.symm]

/-- C6 witness: a Deposited event folded in NonExistent aborts. -/
theorem c6_illegal_event_aborts_and_unreachable_witness :
    handleEvt { snapshot_after := none, state := State.NonExistent, evt_count := 0 }
      (Evt.Deposited 1 0 5) = none :=
  (c6_illegal_event_aborts_and_unreachable.1
    { snapshot_after := none, state := State.NonExistent, evt_count := 0 } 1 0 5 rfl).1

/-- C10: folding a Deposited or Withdrawn event in state Created uses
only the prior state and the amount field of the event — the result is identical
for any two events differing in their id or old_balance fields, and an
event whose old_balance disagrees with the current balance (or whose id
is arbitrary) is still applied, with no consistency check. -/
theorem c10_event_id_and_old_balance_ignored
    (a : Account) (id b : Nat) (h : a.state = State.Created id b)
    (e1 e2 ob1 ob2 amt : Nat) :
    (handleEvt a (Evt.Deposited e1 ob1 amt) = handleEvt a (Evt.Deposited e2 ob2 amt)) ∧
    (handleEvt a (Evt.Withdrawn e1 ob1 amt) = handleEvt a (Evt.Withdrawn e2 ob2 amt)) ∧
    ((handleEvt a (Evt.Deposited e1 ob1 amt)).map (fun p => p.1.state) =
      some (State.Created id (euroCentAdd b amt))) ∧
    ((handleEvt a (Evt.Withdrawn e1 ob1 amt)).map (fun p => p.1.state) =
      some (State.Created id (euroCentSub b amt))) := by
  refine ⟨?_, ?_, ?_, ?_⟩ <;> simp [handleEvt, applyEvt, h]

/-- C10 witness: a Deposited event claiming old_balance 999 is folded
into a balance-5 account without any check, yielding 5 + 10. -/
theorem c10_event_id_and_old_balance_ignored_witness :
    (handleEvt { snapshot_after := none, state := State.Created 1 5, evt_count := 0 }
        (Evt.Deposited 7 999 10)).map (fun p => p.1.state) =
      some (State.Created 1 (euroCentAdd 5 10)) :=
  (c10_event_id_and_old_balance_ignored
    { snapshot_after := none, state := State.Created 1 5, evt_count := 0 }
    1 5 rfl 7 8 999 0 10).2.2.1

/-- C7: folding an event increments the internal event counter by
exactly one (the counter is a u64, so this holds whenever the increment
stays in range — any execution of fewer than 2^64 folds); the fold
surfaces the new state as a snapshot candidate exactly when a cadence N
is configured and the updated counter is a multiple of N; and with no
cadence configured no sequence of folded events ever surfaces a
snapshot candidate. -/
theorem c7_counter_and_snapshot_cadence :
    (∀ (a : Account) (evt : Evt) (a2 : Account) (snap : Option State),
      handleEvt a evt = some (a2, snap) → a.evt_count + 1 < u64Mod →
      a2.evt_count = a.evt_count + 1) ∧
    (∀ (a : Account) (evt : Evt) (a2 : Account) (snap : Option State),
      handleEvt a evt = some (a2, snap) →
      ((snap.isSome = true ↔
        ∃ n : {n : Nat // 0 < n}, a.snapshot_after = some n ∧ a2.evt_count % n.val = 0) ∧
       (snap.isSome = true → snap = some a2.state))) ∧
    (∀ (a : Account) (evts : List Evt) (a2 : Account) (snaps : List State),
      a.snapshot_after = none → runEvts a evts = some (a2, snaps) → snaps = []) := by
  refine ⟨fun a evt a2 snap h hlt => ?_, fun a evt a2 snap h => ?_, fun a evts => ?_⟩
  · obtain ⟨-, -, hcnt, -⟩ := handleEvt_inv h
    rw [hcnt]
    exact Nat.mod_eq_of_lt hlt
  · obtain ⟨-, -, -, hsnap⟩ := handleEvt_inv h
    subst hsnap
    cases hsa : a.snapshot_after with
    | none => refine ⟨?_, ?_⟩ <;> simp [Option.filter, hsa]
    | some n =>
      by_cases hz : a2.evt_count % n.val = 0
      · refine ⟨?_, ?_⟩ <;> simp [Option.filter, hsa, hz]
      · refine ⟨?_, ?_⟩ <;> simp [Option.filter, hsa, hz]
  · induction evts generalizing a with
    | nil =>
      intro a2 snaps hnone hrun
      simp [runEvts] at hrun
      exact hrun.2
    | cons e es ih =>
      intro a2 snaps hnone hrun
      cases he : handleEvt a e with
      | none => simp [runEvts, he] at hrun
      | some p =>
        obtain ⟨-, hkeep, -, hsnap⟩ := @handleEvt_inv a e p.1 p.2 (by rw [he])
        cases hr : runEvts p.1 es with
        | none => simp [runEvts, he, hr] at hrun
        | some q =>
          simp [runEvts, he, hr] at hrun
          have hsnapnone : p.2 = none := by rw [hsnap, hnone]; rfl
          have htail : q.2 = [] := ih p.1 q.1 q.2 (by rw [hkeep, hnone]) (by rw [hr])
          rw [← hrun.2, hsnapnone, htail]
          rfl

/-- C7 witness: from the initial account (count 0, no cadence), folding
a Created event yields counter 1 = 0 + 1. -/
theorem c7_counter_and_snapshot_cadence_witness :
    ({ snapshot_after := none, state := State.Created 3 0, evt_count := 1 } : Account).evt_count =
      ({ snapshot_after := none, state := State.NonExistent, evt_count := 0 } : Account).evt_count
        + 1 :=
  c7_counter_and_snapshot_cadence.1
    { snapshot_after := none, state := State.NonExistent, evt_count := 0 }
    (Evt.Created 3)
    { snapshot_after := none, state := State.Created 3 0, evt_count := 1 }
    none rfl (by decide)

/-- C3 counterexample: a Created(7) event appears in the delivered
subsequence, but because a Deposited event precedes it the projection
loop has already terminated — its while-let pattern fails on the first
non-Created item instead of skipping it — so contains(7) is false,
contradicting the claim that other event kinds are skipped over and that
contains(id) is true exactly when Created(id) appeared anywhere. -/
theorem c3_counterexample :
    Evt.Created 7 ∈ [Evt.Deposited 1 0 5, Evt.Created 7] ∧
    projContains (projLoop [Evt.Deposited 1 0 5, Evt.Created 7] ∅) 7 = false := by
  constructor
  · simp
  · rfl

/-- C3 (amended): the projection loop inserts id into its set for every
Created(id) event delivered, processing events strictly in delivery
order, but terminates at the first delivered event of any other kind
instead of skipping it; hence contains(id) is true exactly when some
Created(id) appears in the longest all-Created front segment of the
delivered subsequence — in particular, when every delivered event is a
Created event (which holds for the lifecycle-tagged subsequence, since
the command handler attaches the lifecycle tag only to Created events),
contains(id) is true exactly when Created(id) appeared anywhere. -/
theorem c3_projection_inserts_created_until_first_other :
    (∀ (l : List Evt) (ids : Finset Nat) (id : Nat),
      id ∈ projLoop l ids ↔
        id ∈ ids ∨ Evt.Created id ∈ l.takeWhile isCreatedEvt) ∧
    (∀ (l : List Evt) (id : Nat), (∀ e ∈ l, isCreatedEvt e = true) →
      (projContains (projLoop l ∅) id = true ↔ Evt.Created id ∈ l)) ∧
    (∀ (a : Account) (cmd : Cmd) (te : TaggedEvt),
      handleCmd a cmd = Except.ok te → te.tag = some ACCOUNT_LIFECYCLE_TAG →
      ∃ cid, te.evt = Evt.Created cid) := by
  have key : ∀ (l : List Evt) (ids : Finset Nat) (id : Nat),
      id ∈ projLoop l ids ↔
        id ∈ ids ∨ Evt.Created id ∈ l.takeWhile isCreatedEvt := by
    intro l
    induction l with
    | nil => intro ids id; simp [projLoop]
    | cons e rest ih =>
      intro ids id
      cases e with
      | Created c =>
        rw [show projLoop (Evt.Created c :: rest) ids = projLoop rest (insert c ids) from rfl]
        rw [ih (insert c ids) id]
        simp [List.takeWhile, isCreatedEvt, Finset.mem_insert]
        tauto
      | Deposited eid ob amt => simp [projLoop, List.takeWhile, isCreatedEvt]
      | Withdrawn eid ob amt => simp [projLoop, List.takeWhile, isCreatedEvt]
  refine ⟨key, fun l id hall => ?_, fun a cmd te hok htag => ?_⟩
  · have hself : l.takeWhile isCreatedEvt = l := List.takeWhile_eq_self_iff.mpr hall
    rw [projContains, decide_eq_true_iff, key l ∅ id, hself]
    simp
  · cases hs : a.state with
    | NonExistent =>
      cases cmd with
      | Create cid =>
        simp [handleCmd, hs] at hok
        exact ⟨cid, by rw [← hok]⟩
      | Deposit did amt => simp [handleCmd, hs] at hok
      | Withdraw wid amt => simp [handleCmd, hs] at hok
    | Created id b =>
      cases cmd with
      | Create cid => simp [handleCmd, hs] at hok
      | Deposit did amt =>
        simp [handleCmd, hs] at hok
        rw [← hok] at htag
        simp at htag
      | Withdraw wid amt =>
        by_cases hlt : b < amt
        · simp [handleCmd, hs, hlt] at hok
        · simp [handleCmd, hs, hlt] at hok
          rw [← hok] at htag
          simp at htag

/-- C3 witness: over a delivered subsequence consisting solely of the
Created(7) event, contains(7) is true exactly because Created(7)
appeared. -/
theorem c3_projection_inserts_created_until_first_other_witness :
    projContains (projLoop [Evt.Created 7] ∅) 7 = true ↔
      Evt.Created 7 ∈ [Evt.Created 7] :=
  c3_projection_inserts_created_until_first_other.2.1 [Evt.Created 7] 7 (by decide)

/-- Running commands from a Created state with representable deposit
headroom: the run never aborts, the accepted-withdrawal total never
overtakes the starting balance plus the accepted-deposit total, and the
final balance is exactly balance + deposits - withdrawals. -/
theorem runAcc_created (cmds : List Cmd) :
    ∀ (a : Account) (id b : Nat), a.state = State.Created id b →
    b + totalDeposits cmds < u64Mod →
    ∃ (a2 : Account) (d w : Nat), runAcc a cmds = some (a2, d, w) ∧
      d ≤ totalDeposits cmds ∧ w ≤ b + d ∧
      a2.state = State.Created id (b + d - w) := by
  induction cmds with
  | nil =>
    intro a id b h hb
    exact ⟨a, 0, 0, rfl, Nat.le_refl 0, by omega, by rw [h]; norm_num⟩
  | cons c cs ih =>
    intro a id b h hb
    cases c with
    | Create cid =>
      have hc : handleCmd a (Cmd.Create cid) = Except.error Error.AlreadyCreated := by
        simp [handleCmd, h]
      have htd : totalDeposits (Cmd.Create cid :: cs) = totalDeposits cs := rfl
      obtain ⟨a2, d, w, hrun, hd, hw, hst⟩ := ih a id b h (by rw [htd] at hb; exact hb)
      refine ⟨a2, d, w, ?_, by rw [htd]; exact hd, hw, hst⟩
      simp [runAcc, hc, hrun]
    | Deposit did amt =>
      have htd : totalDeposits (Cmd.Deposit did amt :: cs) = amt + totalDeposits cs := rfl
      rw [htd] at hb
      have hc : handleCmd a (Cmd.Deposit did amt) =
          Except.ok ⟨Evt.Deposited did b amt, none⟩ := by simp [handleCmd, h]
      have happ : applyEvt a.state (Evt.Deposited did b amt) =
          some (State.Created id (euroCentAdd b amt)) := by simp [applyEvt, h]
      have hadd : euroCentAdd b amt = b + amt := euroCentAdd_exact b amt (by omega)
      have he := handleEvt_eq happ
      obtain ⟨a2, d, w, hrun, hd, hw, hst⟩ :=
        ih { snapshot_after := a.snapshot_after,
             state := State.Created id (euroCentAdd b amt),
             evt_count := (a.evt_count + 1) % u64Mod }
          id (b + amt) (by simp [hadd]) (by omega)
      refine ⟨a2, amt + d, w, ?_, by rw [htd]; omega, by omega, ?_⟩
      · simp [runAcc, hc, he, hrun]
      · rw [hst]
        have : b + amt + d - w = b + (amt + d) - w := by omega
        rw [this]
    | Withdraw wid amt =>
      have htd : totalDeposits (Cmd.Withdraw wid amt :: cs) = totalDeposits cs := rfl
      rw [htd] at hb
      by_cases hlt : b < amt
      · have hc : handleCmd a (Cmd.Withdraw wid amt) =
            Except.error (Error.InvalidWithdraw b amt) := by simp [handleCmd, h, hlt]
        obtain ⟨a2, d, w, hrun, hd, hw, hst⟩ := ih a id b h hb
        refine ⟨a2, d, w, ?_, hd, hw, hst⟩
        simp [runAcc, hc, hrun]
      · have hle : amt ≤ b := Nat.not_lt.mp hlt
        have hc : handleCmd a (Cmd.Withdraw wid amt) =
            Except.ok ⟨Evt.Withdrawn wid b amt, none⟩ := by simp [handleCmd, h, hlt]
        have happ : applyEvt a.state (Evt.Withdrawn wid b amt) =
            some (State.Created id (euroCentSub b amt)) := by simp [applyEvt, h]
        have hsub : euroCentSub b amt = b - amt := euroCentSub_exact b amt hle (by omega)
        have he := handleEvt_eq happ
        obtain ⟨a2, d, w, hrun, hd, hw, hst⟩ :=
          ih { snapshot_after := a.snapshot_after,
               state := State.Created id (euroCentSub b amt),
               evt_count := (a.evt_count + 1) % u64Mod }
            id (b - amt) (by simp [hsub]) (by omega)
        refine ⟨a2, d, amt + w, ?_, hd, by omega, ?_⟩
        · simp [runAcc, hc, he, hrun]
        · rw [hst]
          have : b - amt + d - w = b + d - (amt + w) := by omega
          rw [this]

/-- Running commands from the NonExistent state with a representable
deposit total: the run never aborts, the accepted-withdrawal total never
overtakes the accepted-deposit total, and the final state is either
still NonExistent (nothing accepted) or Created with balance exactly
deposits - withdrawals. -/
theorem runAcc_nonexistent (cmds : List Cmd) :
    ∀ a : Account, a.state = State.NonExistent →
    totalDeposits cmds < u64Mod →
    ∃ (a2 : Account) (d w : Nat), runAcc a cmds = some (a2, d, w) ∧
      d ≤ totalDeposits cmds ∧ w ≤ d ∧
      ((a2.state = State.NonExistent ∧ d = 0 ∧ w = 0) ∨
        ∃ id, a2.state = State.Created id (d - w)) := by
  induction cmds with
  | nil =>
    intro a h hb
    exact ⟨a, 0, 0, rfl, Nat.le_refl 0, Nat.le_refl 0, Or.inl ⟨h, rfl, rfl⟩⟩
  | cons c cs ih =>
    intro a h hb
    cases c with
    | Create cid =>
      have hc : handleCmd a (Cmd.Create cid) =
          Except.ok ⟨Evt.Created cid, some ACCOUNT_LIFECYCLE_TAG⟩ := by
        simp [handleCmd, h]
      have happ : applyEvt a.state (Evt.Created cid) = some (State.Created cid 0) := by
        simp [applyEvt, h]
      have he := handleEvt_eq happ
      obtain ⟨a2, d, w, hrun, hd, hw, hst⟩ :=
        runAcc_created cs
          { snapshot_after := a.snapshot_after, state := State.Created cid 0,
            evt_count := (a.evt_count + 1) % u64Mod }
          cid 0 rfl (by simpa using hb)
      refine ⟨a2, d, w, ?_, hd, by omega, Or.inr ⟨cid, ?_⟩⟩
      · simp [runAcc, hc, he, hrun]
      · rw [hst]
        have : 0 + d - w = d - w := by omega
        rw [this]
    | Deposit did amt =>
      have hc : handleCmd a (Cmd.Deposit did amt) = Except.error Error.NotYetCreated := by
        simp [handleCmd, h]
      have htd : totalDeposits (Cmd.Deposit did amt :: cs) = amt + totalDeposits cs := rfl
      obtain ⟨a2, d, w, hrun, hd, hw, hst⟩ := ih a h (by rw [htd] at hb; omega)
      refine ⟨a2, d, w, ?_, by rw [htd]; omega, hw, hst⟩
      simp [runAcc, hc, hrun]
    | Withdraw wid amt =>
      have hc : handleCmd a (Cmd.Withdraw wid amt) = Except.error Error.NotYetCreated := by
        simp [handleCmd, h]
      have htd : totalDeposits (Cmd.Withdraw wid amt :: cs) = totalDeposits cs := rfl
      obtain ⟨a2, d, w, hrun, hd, hw, hst⟩ := ih a h (by rw [htd] at hb; omega)
      refine ⟨a2, d, w, ?_, by rw [htd]; omega, hw, hst⟩
      simp [runAcc, hc, hrun]

/-- C1 counterexample: two accepted deposits of 2^63 cents wrap the u64
balance to 0, while the sum of accepted deposit amounts minus the sum of
accepted withdrawal amounts is 2^64 — the resulting balance does not
equal deposits minus withdrawals. -/
theorem c1_counterexample :
    runAcc Account.default
        [Cmd.Create 0, Cmd.Deposit 0 (2 ^ 63), Cmd.Deposit 0 (2 ^ 63)] =
      some ({ snapshot_after := none, state := State.Created 0 0, evt_count := 3 },
        2 ^ 63 + 2 ^ 63, 0) ∧
    (0 : Nat) ≠ 2 ^ 63 + 2 ^ 63 - 0 := by
  constructor
  · rfl
  · decide

/-- C1 (amended): for every command sequence handled from NonExistent
with each accepted event folded immediately, provided the total of all
deposit amounts is representable in u64 (below 2^64, so no overflow),
every point of the sequence satisfies: the run never aborts, the
accepted-withdrawal total never exceeds the accepted-deposit total, the
balance (= deposits - withdrawals, as an integer) is ≥ 0, and the state
is NonExistent with zero totals or Created with balance exactly
deposits - withdrawals. -/
theorem c1_balance_equals_deposits_minus_withdrawals
    (cmds : List Cmd) (hbound : totalDeposits cmds < u64Mod) :
    ∀ p q : List Cmd, cmds = p ++ q →
    ∃ (a2 : Account) (d w : Nat),
      runAcc Account.default p = some (a2, d, w) ∧ w ≤ d ∧
      (0 : Int) ≤ (d : Int) - (w : Int) ∧
      ((a2.state = State.NonExistent ∧ d = 0 ∧ w = 0) ∨
        ∃ id, a2.state = State.Created id (d - w)) := by
  intro p q hpq
  have hple : totalDeposits p ≤ totalDeposits cmds := by
    rw [hpq, totalDeposits_append]
    omega
  obtain ⟨a2, d, w, hrun, hd, hw, hst⟩ :=
    runAcc_nonexistent p Account.default rfl (lt_of_le_of_lt hple hbound)
  refine ⟨a2, d, w, hrun, hw, by omega, hst⟩

/-- C1 witness: the end-to-end sequence Create, Deposit 50, Withdraw 20
(and its strict prefixes, here the full sequence) reaches balance
50 - 20 = 30 with a nonnegative balance throughout. -/
theorem c1_balance_equals_deposits_minus_withdrawals_witness :
    ∃ (a2 : Account) (d w : Nat),
      runAcc Account.default [Cmd.Create 0, Cmd.Deposit 0 50, Cmd.Withdraw 0 20] =
        some (a2, d, w) ∧ w ≤ d ∧
      (0 : Int) ≤ (d : Int) - (w : Int) ∧
      ((a2.state = State.NonExistent ∧ d = 0 ∧ w = 0) ∨
        ∃ id, a2.state = State.Created id (d - w)) :=
  c1_balance_equals_deposits_minus_withdrawals
    [Cmd.Create 0, Cmd.Deposit 0 50, Cmd.Withdraw 0 20] (by decide)
    [Cmd.Create 0, Cmd.Deposit 0 50, Cmd.Withdraw 0 20] [] (by simp)

end RustyBank
